import Mathlib

/-
  Verification of the codex_cc_switch reverse proxy.

  Shallow embedding of the pool-selection state machine, the error
  classifier, the error-recording and cooldown logic, the adaptive
  Codex timeout controller, the usage-statistics store and the
  OpenAI/Anthropic dialect detection and stream conversion, translated
  from src/app.py, src/config_manager.py, src/token_stats.py and
  src/openai_adapter.py.

  Python dicts that are used as finite maps are modelled as association
  lists; `datetime` values are modelled as integer seconds paired with a
  weekday number (0 = Monday); fallible operations (dict / list indexing
  that can raise) are modelled in `Option`.
-/

set_option maxRecDepth 4000

/-- Association-list lookup, the model of Python `d.get(k)` / `k in d`. -/
def alook {α β : Type} [DecidableEq α] : List (α × β) → α → Option β
  | [], _ => none
  | (k, v) :: rest, key => if key = k then some v else alook rest key

/-- Association-list store, the model of Python `d[k] = v`. -/
def aset {α β : Type} [DecidableEq α] : List (α × β) → α → β → List (α × β)
  | [], key, val => [(key, val)]
  | (k, v) :: rest, key, val =>
      if key = k then (key, val) :: rest else (k, v) :: aset rest key val

/-- Association-list delete, the model of Python `d.pop(k, None)`. -/
def adel {α β : Type} [DecidableEq α] : List (α × β) → α → List (α × β)
  | [], _ => []
  | (k, v) :: rest, key => if key = k then rest else (k, v) :: adel rest key

/-- Model of Python `base.update(m)` on a dict: every key of `m` is stored
into `base`, overwriting existing values and adding new keys. -/
def aupdate {α β : Type} [DecidableEq α] (base : List (α × β)) (m : List (α × β)) :
    List (α × β) :=
  m.foldl (fun acc kv => aset acc kv.1 kv.2) base

theorem alook_aset {α β : Type} [DecidableEq α]
    (l : List (α × β)) (k key : α) (v : β) :
    alook (aset l key v) k = if k = key then some v else alook l k := by
  induction l with
  | nil => simp [aset, alook]
  | cons hd tl ih =>
      obtain ⟨a, b⟩ := hd
      by_cases hka : key = a
      · subst hka
        by_cases hk : k = key <;> simp [aset, alook, hk]
      · by_cases hk : k = a
        · subst hk
          simp [aset, alook, hka, Ne.symm hka]
        · by_cases hkk : k = key <;>
            simp_all [aset, alook, hka, hk, hkk, ih]

theorem alook_aupdate_isSome {α β : Type} [DecidableEq α]
    (m : List (α × β)) (base : List (α × β)) (k : α)
    (h : (alook base k).isSome) : (alook (aupdate base m) k).isSome := by
  induction m generalizing base with
  | nil => simpa [aupdate] using h
  | cons hd tl ih =>
      have hstep : (alook (aset base hd.1 hd.2) k).isSome := by
        rw [alook_aset]
        by_cases hk : k = hd.1 <;> simp [hk, h]
      simpa [aupdate] using ih (aset base hd.1 hd.2) hstep

/- ===================================================================
   Error-handling strategy tables and the error classifier.
   Source: config_manager.py `ConfigManager.get_error_handling_strategies`
   and app.py `get_error_strategy`, `TimeoutConfig.get_network_error_strategy`.
   Strategy values are kept as the literal strings of the source
   ("switch_api", "strategy_retry", "normal_retry").
   =================================================================== -/

structure ErrorHandlingStrategies where
  http_status_codes : List (String × String)
  network_errors : List (String × String)
deriving DecidableEq

/-- The `default_strategies` literal of
`ConfigManager.get_error_handling_strategies` (config_manager.py). -/
def default_error_handling_strategies : ErrorHandlingStrategies :=
  { http_status_codes :=
      [("400", "strategy_retry"), ("404", "strategy_retry"),
       ("408", "strategy_retry"), ("429", "strategy_retry"),
       ("500", "strategy_retry"), ("502", "strategy_retry"),
       ("503", "strategy_retry"), ("504", "strategy_retry"),
       ("520", "strategy_retry"), ("521", "strategy_retry"),
       ("522", "strategy_retry"), ("524", "strategy_retry"),
       ("401", "switch_api"), ("403", "switch_api"),
       ("default", "strategy_retry")],
    network_errors :=
      [("ReadError", "switch_api"), ("ConnectError", "switch_api"),
       ("ReadTimeout", "strategy_retry"), ("default", "switch_api")] }

/-- The stored `error_handling_strategies` section of the configuration
file; either sub-table may be absent (Python `"..." in stored_strategies`). -/
structure StoredStrategies where
  http_status_codes : Option (List (String × String))
  network_errors : Option (List (String × String))

/-- `ConfigManager.get_error_handling_strategies`: the defaults with the
stored tables merged on top via `dict.update`. -/
def get_error_handling_strategies (stored : StoredStrategies) :
    ErrorHandlingStrategies :=
  { http_status_codes :=
      match stored.http_status_codes with
      | none => default_error_handling_strategies.http_status_codes
      | some m => aupdate default_error_handling_strategies.http_status_codes m,
    network_errors :=
      match stored.network_errors with
      | none => default_error_handling_strategies.network_errors
      | some m => aupdate default_error_handling_strategies.network_errors m }

/-- app.py `get_error_strategy`: exact key, then the `default` key of the
same table; `None` when both are absent or the error type is unknown. -/
def get_error_strategy (strategies : ErrorHandlingStrategies)
    (error_code : String) (error_type : String) : Option String :=
  if error_type = "http_status_code" then
    match alook strategies.http_status_codes error_code with
    | some s => some s
    | none => alook strategies.http_status_codes "default"
  else if error_type = "network_error" then
    match alook strategies.network_errors error_code with
    | some s => some s
    | none => alook strategies.network_errors "default"
  else none

/-- app.py `TimeoutConfig.get_network_error_strategy`: exact key, else the
hard-coded `"switch_api"`; the table's `default` entry is never consulted. -/
def get_network_error_strategy (strategies : ErrorHandlingStrategies)
    (error_type : String) : String :=
  (alook strategies.network_errors error_type).getD "switch_api"

/-- The transport-error classifier as the spec describes it (for
comparison with the code's `get_network_error_strategy`): exact key, then
the table's `default` entry, then hard-coded `switch_api`. -/
def spec_described_transport_classifier (strategies : ErrorHandlingStrategies)
    (kind : String) : String :=
  match alook strategies.network_errors kind with
  | some s => s
  | none =>
      match alook strategies.network_errors "default" with
      | some s => s
      | none => "switch_api"

/- ===================================================================
   Adaptive Codex timeout state machine.
   Source: app.py `stream_generator` (the `codex_timeout_extra_seconds` /
   `codex_success_count` globals) and `TimeoutConfig.get_codex_base_timeout`.
   =================================================================== -/

structure CodexTimeoutState where
  codex_timeout_extra_seconds : Nat
  codex_success_count : Nat
deriving DecidableEq

/-- The update performed when a Codex streaming body times out (both the
elapsed-total check and the `asyncio.wait_for` check run the same code):
`codex_timeout_extra_seconds += increment; codex_success_count = 0`. -/
def codex_on_stream_timeout (st : CodexTimeoutState) (increment : Nat) :
    CodexTimeoutState :=
  { codex_timeout_extra_seconds := st.codex_timeout_extra_seconds + increment,
    codex_success_count := 0 }

/-- The update performed in the `finally` block of `stream_generator` when a
Codex stream completes without interruption. -/
def codex_on_stream_success (st : CodexTimeoutState) : CodexTimeoutState :=
  if st.codex_timeout_extra_seconds > 0 then
    if st.codex_success_count + 1 ≥ 3 then ⟨0, 0⟩
    else ⟨st.codex_timeout_extra_seconds, st.codex_success_count + 1⟩
  else st

/-- `stream_total_timeout = codex_base_timeout + current_extra_seconds`. -/
def codex_stream_total_timeout (base : Nat) (st : CodexTimeoutState) : Nat :=
  base + st.codex_timeout_extra_seconds

/- ===================================================================
   Per-entry runtime status, error recording and success reset.
   Source: app.py `_init_status_dict`, `_record_error_core`,
   `record_api_error` / `record_codex_error`, the success reset in
   `reverse_proxy`, and the expiry reset in `is_api_available`.
   =================================================================== -/

inductive ApiStatusKind
  | normal
  | warning
deriving DecidableEq

structure EntryStatus where
  status : ApiStatusKind
  error_count : Nat
  cooldown_until : Option Int
deriving DecidableEq

/-- The per-index value installed by `_init_status_dict` and the
auto-created record of `_record_error_core`. -/
def init_entry_status : EntryStatus :=
  { status := .normal, error_count := 0, cooldown_until := none }

/-- The update `_record_error_core` applies to a single entry's status:
increment the error counter, and at or above the threshold re-arm the
cooldown and flip the status to warning. -/
def record_entry_error (s : EntryStatus) (now : Int) (threshold : Nat)
    (cooldown_seconds : Int) : EntryStatus :=
  let count := s.error_count + 1
  if count ≥ threshold then
    { status := .warning, error_count := count,
      cooldown_until := some (now + cooldown_seconds) }
  else { s with error_count := count }

/-- app.py `_record_error_core` on the status dict: the record is
auto-created when absent, then updated by `record_entry_error`. -/
def record_error_core (status_dict : List (Nat × EntryStatus)) (api_index : Nat)
    (now : Int) (threshold : Nat) (cooldown_seconds : Int) :
    List (Nat × EntryStatus) :=
  let s := (alook status_dict api_index).getD init_entry_status
  aset status_dict api_index (record_entry_error s now threshold cooldown_seconds)

/-- The success reset of `reverse_proxy` (app.py, after the retry loop, on
`status_code < 400`): when the entry has a positive error count or an armed
cooldown, reset all three runtime fields; otherwise leave it untouched. -/
def reset_entry_on_success (s : EntryStatus) : EntryStatus :=
  if s.error_count > 0 ∨ s.cooldown_until ≠ none then init_entry_status else s

/-- Entry statuses reachable in the program: initial value, error
recording, the cooldown-expiry reset of `is_api_available` /
`is_codex_api_available`, and the success reset of `reverse_proxy`. -/
inductive ReachableEntryStatus : EntryStatus → Prop
  | init : ReachableEntryStatus init_entry_status
  | record (s : EntryStatus) (now : Int) (threshold : Nat) (cs : Int) :
      ReachableEntryStatus s →
      ReachableEntryStatus (record_entry_error s now threshold cs)
  | expire (s : EntryStatus) :
      ReachableEntryStatus s → ReachableEntryStatus init_entry_status
  | success (s : EntryStatus) :
      ReachableEntryStatus s → ReachableEntryStatus (reset_entry_on_success s)

theorem reachable_count_zero_normal {s : EntryStatus}
    (h : ReachableEntryStatus s) (hc : s.error_count = 0)
    (hcd : s.cooldown_until = none) : s.status = .normal := by
  induction h with
  | init => rfl
  | record s' now threshold cs _ _ =>
      exfalso
      unfold record_entry_error at hc
      by_cases hthr : s'.error_count + 1 ≥ threshold <;> simp [hthr] at hc
  | expire s' _ _ => rfl
  | success s' _ ih =>
      unfold reset_entry_on_success at hc hcd ⊢
      by_cases hg : s'.error_count > 0 ∨ s'.cooldown_until ≠ none
      · simp [hg, init_entry_status]
      · simp only [if_neg hg] at hc hcd ⊢
        exact ih hc hcd

/- ===================================================================
   Pool configuration data and the availability check.
   Source: app.py `is_api_available` / `is_codex_api_available`,
   `_get_primary_indices`, `_get_backup_indices`,
   `get_codex_backup_api_indices`.
   =================================================================== -/

/-- One configured upstream entry, with the fields the selection logic
reads. `ctype` is the raw `type` field (`cfg.get("type", "primary")`), and
`time_enabled` is the raw `time_enabled` list (`cfg.get("time_enabled",
[1,1,1,1,1,1,1])`); an empty list is falsy in Python and skips the
weekday check. -/
structure ApiConfig where
  name : String
  base_url : String
  key : String
  enabled : Bool
  ctype : Option String
  time_enabled : List Bool
deriving DecidableEq

/-- The triple of fields callers read off a selected configuration;
`get_current_config` returns `{"base_url": "", "key": "", "name": "未配置"}`
for an empty pool. -/
structure SelectedConfig where
  base_url : String
  key : String
  name : String
deriving DecidableEq

def ApiConfig.selected (c : ApiConfig) : SelectedConfig :=
  { base_url := c.base_url, key := c.key, name := c.name }

def placeholder_config : SelectedConfig := { base_url := "", key := "", name := "未配置" }

/-- A wall-clock instant: seconds on a monotone axis plus the weekday
number that `datetime.weekday()` would report (0 = Monday). -/
structure PyTime where
  sec : Int
  weekday : Nat
deriving DecidableEq

/-- Model of Python `enumerate` starting at `n`. -/
def indexed {α : Type} : Nat → List α → List (Nat × α)
  | _, [] => []
  | n, c :: cs => (n, c) :: indexed (n + 1) cs

/-- app.py `_get_primary_indices`: indices whose `type` defaults to
`"primary"`. -/
def get_primary_indices (configs : List ApiConfig) : List Nat :=
  ((indexed 0 configs).filter (fun p => p.2.ctype.getD "primary" = "primary")).map (·.1)

/-- app.py `_get_backup_indices`: indices whose `type` is `"backup"`. -/
def get_backup_indices (configs : List ApiConfig) : List Nat :=
  ((indexed 0 configs).filter (fun p => p.2.ctype = some "backup")).map (·.1)

/-- app.py `get_codex_backup_api_indices`: typed backups, else the last
index when the pool has more than one entry, else nothing. -/
def get_codex_backup_api_indices (configs : List ApiConfig) : List Nat :=
  let backup := get_backup_indices configs
  if backup ≠ [] then backup
  else if 1 < configs.length then [configs.length - 1] else []

/-- app.py `is_api_available` / `is_codex_api_available` (they are
identical up to the pool they read): enabled check, weekday gate, cooldown
check; an expired cooldown resets the entry's status in place, so the
check returns the possibly-updated status dict alongside the verdict. -/
def is_api_available (configs : List ApiConfig) (d : List (Nat × EntryStatus))
    (api_index : Nat) (now : PyTime) : Bool × List (Nat × EntryStatus) :=
  match configs.get? api_index with
  | none => (false, d)
  | some cfg =>
      if !cfg.enabled then (false, d)
      else if !cfg.time_enabled.isEmpty && decide (now.weekday < cfg.time_enabled.length)
              && !(cfg.time_enabled.getD now.weekday true) then (false, d)
      else
        match alook d api_index with
        | none => (true, d)
        | some s =>
            match s.cooldown_until with
            | some cu =>
                if now.sec < cu then (false, d)
                else (true, aset d api_index init_entry_status)
            | none => (true, d)

/-- The list comprehension `[idx for idx in ... if is_api_available(idx)]`,
threading the status-dict mutations of `is_api_available` left to right. -/
def filter_available (configs : List ApiConfig) (now : PyTime) :
    List Nat → List (Nat × EntryStatus) → List Nat × List (Nat × EntryStatus)
  | [], d => ([], d)
  | i :: rest, d =>
      let r1 := is_api_available configs d i now
      let r2 := filter_available configs now rest r1.2
      (if r1.1 then i :: r2.1 else r2.1, r2.2)

/-- app.py `get_first_available_primary_api_index` /
`get_first_available_primary_codex_index`, generalized over the index
list it walks. -/
def first_available (configs : List ApiConfig) (now : PyTime) :
    List Nat → List (Nat × EntryStatus) → Option Nat × List (Nat × EntryStatus)
  | [], d => (none, d)
  | i :: rest, d =>
      let r1 := is_api_available configs d i now
      if r1.1 then (some i, r1.2) else first_available configs now rest r1.2

/- ===================================================================
   The selection state machine.
   Source: app.py `get_current_config`, `get_current_codex_config`,
   `ensure_current_api_index`, `find_primary_api_for_time`.
   =================================================================== -/

/-- The process-global selection state of one pool: the configuration
list, the per-index status dict, the cursor and the backup-probing
bookkeeping. Timestamps are stored as seconds. -/
structure ApiState where
  configs : List ApiConfig
  status : List (Nat × EntryStatus)
  current_index : Int
  is_using_backup : Bool
  backup_start_time : Option Int
  last_primary_check_time : Option Int
  last_primary_switch_time : Int
deriving DecidableEq

/-- List indexing used after index normalization. Python indexing with a
negative index would wrap from the end; every indexing site below runs
after the index was normalized into `[0, len)`, so a negative index is
modelled as a failure, which the totality theorem shows is never hit. -/
def cfgAt (configs : List ApiConfig) (idx : Int) : Option ApiConfig :=
  if 0 ≤ idx then configs.get? idx.toNat else none

/-- app.py `find_primary_api_for_time`: none when there are no primaries,
else the first available primary, else the first primary. -/
def find_primary_api_for_time (configs : List ApiConfig)
    (d : List (Nat × EntryStatus)) (now : PyTime) :
    Option Nat × List (Nat × EntryStatus) :=
  match get_primary_indices configs with
  | [] => (none, d)
  | p :: rest =>
      let r := first_available configs now (p :: rest) d
      match r.1 with
      | some i => (some i, r.2)
      | none => (some p, r.2)

/-- app.py `ensure_current_api_index`. -/
def ensure_current_api_index (st : ApiState) (now : PyTime)
    (reset_backup_state : Bool) : ApiState :=
  if st.configs.isEmpty then
    { st with
        current_index := -1
        is_using_backup := false
        backup_start_time := none
        last_primary_check_time := none }
  else
    let r := find_primary_api_for_time st.configs st.status now
    let preferred : Int := match r.1 with | some i => (i : Int) | none => 0
    let st1 := { st with status := r.2 }
    if preferred < (st1.configs.length : Int) then
      let clear := reset_backup_state || st1.is_using_backup
      { st1 with
          current_index := preferred
          is_using_backup := if clear then false else st1.is_using_backup
          backup_start_time := if clear then none else st1.backup_start_time
          last_primary_check_time := if clear then none else st1.last_primary_check_time
          last_primary_switch_time := now.sec }
    else st1

/-- The backup walk shared by the `using_backup` branches of
`get_current_config` (lines 447-455) and `get_current_codex_config`
(lines 365-373): first available backup wins; switching to a different
backup re-stamps `backup_start_time` and clears the probe clock; with no
available backup the current entry is returned unchanged (force
continue). -/
def backup_walk (now : PyTime) :
    ApiState → List Nat → Option (SelectedConfig × ApiState)
  | st, [] => (cfgAt st.configs st.current_index).map (fun c => (c.selected, st))
  | st, b :: rest =>
      let r := is_api_available st.configs st.status b now
      let stA := { st with status := r.2 }
      if r.1 then
        let stB :=
          if stA.current_index ≠ (b : Int) then
            { stA with
                backup_start_time := some now.sec
                last_primary_check_time := none }
          else stA
        let stC := { stB with current_index := (b : Int), is_using_backup := true }
        (cfgAt stC.configs stC.current_index).map (fun c => (c.selected, stC))
      else backup_walk now stA rest

/-- The backup fallback of `get_current_config` when not on backup and no
primary is available (lines 473-485): adopt the first available backup
and enter backup mode, else force-continue on the current entry. -/
def backup_fallback (now : PyTime) :
    ApiState → List Nat → Option (SelectedConfig × ApiState)
  | st, [] => (cfgAt st.configs st.current_index).map (fun c => (c.selected, st))
  | st, b :: rest =>
      let r := is_api_available st.configs st.status b now
      let stA := { st with status := r.2 }
      if r.1 then
        let stB := { stA with
            last_primary_switch_time := if stA.current_index ≠ (b : Int) || !stA.is_using_backup then now.sec else stA.last_primary_switch_time
            is_using_backup := true
            backup_start_time := some now.sec
            last_primary_check_time := none
            current_index := (b : Int) }
        (cfgAt stB.configs stB.current_index).map (fun c => (c.selected, stB))
      else backup_fallback now stA rest

/-- Same fallback in `get_current_codex_config` (lines 389-397); the codex
pool has no `last_primary_switch_time` bookkeeping. -/
def codex_backup_fallback (now : PyTime) :
    ApiState → List Nat → Option (SelectedConfig × ApiState)
  | st, [] => (cfgAt st.configs st.current_index).map (fun c => (c.selected, st))
  | st, b :: rest =>
      let r := is_api_available st.configs st.status b now
      let stA := { st with status := r.2 }
      if r.1 then
        let stB := { stA with
            is_using_backup := true
            backup_start_time := some now.sec
            last_primary_check_time := none
            current_index := (b : Int) }
        (cfgAt stB.configs stB.current_index).map (fun c => (c.selected, stB))
      else codex_backup_fallback now stA rest

/-- The probe-timer test of both selectors: probe when the pool has never
been probed since entering backup mode, or the interval has elapsed. -/
def should_check_primary (st : ApiState) (now : PyTime) (check_interval : Int) : Bool :=
  match st.last_primary_check_time with
  | none => true
  | some t => decide (check_interval ≤ now.sec - t)

/-- The index-normalization step at the top of `get_current_config`
(app.py lines 412-415): an out-of-range or negative cursor is re-derived
via `ensure_current_api_index` and falls back to 0. -/
def normalize_current_index (st : ApiState) (now : PyTime) : ApiState :=
  if st.current_index < 0 || (st.configs.length : Int) ≤ st.current_index then
    let stE := ensure_current_api_index st now true
    if stE.current_index < 0 || (stE.configs.length : Int) ≤ stE.current_index then
      { stE with current_index := 0 }
    else stE
  else st

/-- The selection body of `get_current_config` after normalization
(app.py lines 417-485). -/
def get_current_config_selection (st1 : ApiState) (now : PyTime)
    (check_interval : Int) : Option (SelectedConfig × ApiState) :=
  let rA := filter_available st1.configs now (get_primary_indices st1.configs) st1.status
  let st2 := { st1 with status := rA.2 }
  if st2.is_using_backup then
    if should_check_primary st2 now check_interval then
      let st3 := { st2 with last_primary_check_time := some now.sec }
      match rA.1 with
      | target :: _ =>
          let st4 := { st3 with
              is_using_backup := false
              backup_start_time := none
              last_primary_check_time := none
              last_primary_switch_time := now.sec
              current_index := (target : Int) }
          (cfgAt st4.configs st4.current_index).map (fun c => (c.selected, st4))
      | [] => backup_walk now st3 (get_backup_indices st1.configs)
    else backup_walk now st2 (get_backup_indices st1.configs)
  else
    match rA.1 with
    | selected :: _ =>
        let st3 := { st2 with
            last_primary_switch_time := if st2.current_index ≠ (selected : Int) then now.sec else st2.last_primary_switch_time
            is_using_backup := false
            backup_start_time := none
            last_primary_check_time := none
            current_index := (selected : Int) }
        (cfgAt st3.configs st3.current_index).map (fun c => (c.selected, st3))
    | [] => backup_fallback now st2 (get_backup_indices st1.configs)

/-- app.py `get_current_config`: placeholder for an empty pool, index
normalization, then the priority selection. -/
def get_current_config (st : ApiState) (now : PyTime) (check_interval : Int) :
    Option (SelectedConfig × ApiState) :=
  if st.configs.isEmpty then some (placeholder_config, st)
  else get_current_config_selection (normalize_current_index st now) now check_interval

/-- The inline index-normalization of `get_current_codex_config`
(app.py lines 330-337): first available primary, else the first primary,
else index 0. -/
def normalize_codex_index (st : ApiState) (now : PyTime) : ApiState :=
  if st.current_index < 0 || (st.configs.length : Int) ≤ st.current_index then
    let r := first_available st.configs now (get_primary_indices st.configs) st.status
    match r.1 with
    | some i => { st with status := r.2, current_index := (i : Int) }
    | none =>
        match get_primary_indices st.configs with
        | p :: _ => { st with status := r.2, current_index := (p : Int) }
        | [] => { st with status := r.2, current_index := 0 }
  else st

/-- The selection body of `get_current_codex_config` after normalization
(app.py lines 342-400). -/
def get_current_codex_selection (st1 : ApiState) (now : PyTime)
    (check_interval : Int) : Option (SelectedConfig × ApiState) :=
  let rA := filter_available st1.configs now (get_primary_indices st1.configs) st1.status
  let st2 := { st1 with status := rA.2 }
  if st2.is_using_backup then
    if should_check_primary st2 now check_interval then
      let st3 := { st2 with last_primary_check_time := some now.sec }
      match rA.1 with
      | target :: _ =>
          let st4 := { st3 with
              is_using_backup := false
              backup_start_time := none
              last_primary_check_time := none
              current_index := (target : Int) }
          (cfgAt st4.configs st4.current_index).map (fun c => (c.selected, st4))
      | [] => backup_walk now st3 (get_codex_backup_api_indices st1.configs)
    else backup_walk now st2 (get_codex_backup_api_indices st1.configs)
  else
    match rA.1 with
    | selected :: _ =>
        let st3 := { st2 with
            is_using_backup := false
            backup_start_time := none
            last_primary_check_time := none
            current_index := (selected : Int) }
        (cfgAt st3.configs st3.current_index).map (fun c => (c.selected, st3))
    | [] => codex_backup_fallback now st2 (get_codex_backup_api_indices st1.configs)

/-- app.py `get_current_codex_config`: placeholder for an empty pool, the
single-entry shortcut, then normalization and priority selection. -/
def get_current_codex_config (st : ApiState) (now : PyTime) (check_interval : Int) :
    Option (SelectedConfig × ApiState) :=
  if st.configs.isEmpty then some (placeholder_config, st)
  else if st.configs.length = 1 then
    (st.configs.get? 0).map (fun c => (c.selected, st))
  else get_current_codex_selection (normalize_codex_index st now) now check_interval

/- ===================================================================
   The strategy_retry ladder loop.
   Source: app.py `reverse_proxy`: the attempt loop (lines 3305-3580)
   whose every iteration first re-runs the selector (line 3352,
   `get_current_config()` for Claude requests), the exception handler
   restricted to the path where every failure is classified
   strategy_retry (lines 3762-3878), the error record on exhaustion
   (lines 3899-3903), and the success reset that follows the loop
   (lines 4059-4069).
   =================================================================== -/

structure UsageCounters where
  total_requests : Int
  total_tokens : Int
  total_input_tokens : Int
  total_output_tokens : Int
  total_cache_creation_tokens : Int
  total_cache_read_tokens : Int
deriving DecidableEq

def zero_counters : UsageCounters := ⟨0, 0, 0, 0, 0, 0⟩

/-- One `daily[today]` record: the six counters plus the per-model
request-count dict. -/
structure DailyRecord where
  counters : UsageCounters
  models : List (String × Int)
deriving DecidableEq

/-- The on-disk stats structure `{summary, by_model, daily, ...}`
(`generated_at` carries no counter and is omitted). -/
structure TokenStats where
  summary : UsageCounters
  unique_models : List String
  by_model : List (String × UsageCounters)
  daily : List (String × DailyRecord)
deriving DecidableEq

/-- `TokenStatsManager._get_empty_stats_structure`. -/
def empty_token_stats : TokenStats :=
  { summary := zero_counters, unique_models := [], by_model := [], daily := [] }

/-- The `usage_data` dict handed to `record_usage`; every field is the
optional integer stored under the corresponding key. -/
structure UsageData where
  input_tokens : Option Int
  prompt_tokens : Option Int
  output_tokens : Option Int
  completion_tokens : Option Int
  cache_creation_input_tokens : Option Int
  cache_read_input_tokens : Option Int
  total_tokens : Option Int
deriving DecidableEq

/-- Python `usage_data.get(a) or usage_data.get(b, 0)`: the second lookup
is taken when the first is absent or falsy (equal to 0). -/
def py_or_get (primary fallback : Option Int) : Int :=
  match primary with
  | some v => if v ≠ 0 then v else fallback.getD 0
  | none => fallback.getD 0

/-- Add one request's normalized token amounts onto a counter record. -/
def add_usage (c : UsageCounters) (total input output cache_creation cache_read : Int) :
    UsageCounters :=
  { total_requests := c.total_requests + 1
    total_tokens := c.total_tokens + total
    total_input_tokens := c.total_input_tokens + input
    total_output_tokens := c.total_output_tokens + output
    total_cache_creation_tokens := c.total_cache_creation_tokens + cache_creation
    total_cache_read_tokens := c.total_cache_read_tokens + cache_read }

/-- token_stats.py `TokenStatsManager.record_usage`: normalize the usage
dict, then accumulate into summary, by_model, daily and daily.models,
creating records on first occurrence. -/
def record_usage (stats : TokenStats) (model : String) (usage_data : UsageData)
    (today : String) : TokenStats :=
  let input := py_or_get usage_data.input_tokens usage_data.prompt_tokens
  let output := py_or_get usage_data.output_tokens usage_data.completion_tokens
  let cache_creation := usage_data.cache_creation_input_tokens.getD 0
  let cache_read := usage_data.cache_read_input_tokens.getD 0
  let total := usage_data.total_tokens.getD (input + output)
  let summary1 := add_usage stats.summary total input output cache_creation cache_read
  let unique1 :=
    if model ∈ stats.unique_models then stats.unique_models
    else stats.unique_models ++ [model]
  let bm := (alook stats.by_model model).getD zero_counters
  let by_model1 := aset stats.by_model model
    (add_usage bm total input output cache_creation cache_read)
  let dr := (alook stats.daily today).getD ⟨zero_counters, []⟩
  let dm := (alook dr.models model).getD 0
  let daily1 := aset stats.daily today
    ⟨add_usage dr.counters total input output cache_creation cache_read,
     aset dr.models model (dm + 1)⟩
  { summary := summary1, unique_models := unique1, by_model := by_model1, daily := daily1 }

/-- The `usage` object of a Codex `response.completed` event as read by
`extract_usage_from_chunks`: `input_tokens`, `input_tokens_details.cached_tokens`
and `output_tokens`, each absent-defaulting to 0. -/
structure CodexUsage where
  input_tokens : Option Int
  cached_tokens : Option Int
  output_tokens : Option Int
deriving DecidableEq

/-- app.py `extract_usage_from_chunks`, Codex branch (lines 1064-1083):
the cached tokens are split off the reported input tokens by
subtraction. -/
def extract_codex_usage (u : CodexUsage) : UsageData :=
  let cached := u.cached_tokens.getD 0
  let total_input := u.input_tokens.getD 0
  let new_input := total_input - cached
  let output := u.output_tokens.getD 0
  { input_tokens := some new_input
    prompt_tokens := none
    output_tokens := some output
    completion_tokens := none
    cache_creation_input_tokens := some 0
    cache_read_input_tokens := some cached
    total_tokens := some (new_input + output + cached) }

/-- Component-wise order on counter records: every counter of the first is
at most the corresponding counter of the second. -/
def counters_le (a b : UsageCounters) : Prop :=
  a.total_requests ≤ b.total_requests ∧
  a.total_tokens ≤ b.total_tokens ∧
  a.total_input_tokens ≤ b.total_input_tokens ∧
  a.total_output_tokens ≤ b.total_output_tokens ∧
  a.total_cache_creation_tokens ≤ b.total_cache_creation_tokens ∧
  a.total_cache_read_tokens ≤ b.total_cache_read_tokens

/- ===================================================================
   OpenAI-request detection.
   Source: openai_adapter.py `OpenAIToClaude.is_openai_request`,
   `_is_openai_messages_format`, `_is_openai_model_name`,
   `_has_claude_format_features`.
   =================================================================== -/

/-- One element of a message's `content` list: a dict with an optional
`type` field, or a non-dict value. -/
inductive ContentBlock
  | dict (btype : Option String)
  | nondict
deriving DecidableEq

/-- A message's `content` value: a plain string, a list of blocks, or
anything else. -/
inductive MsgContent
  | str (s : String)
  | blocks (bs : List ContentBlock)
  | other
deriving DecidableEq

/-- One element of the `messages` list: a dict with an optional `content`
key, or a non-dict value. -/
inductive ChatMessage
  | dict (content : Option MsgContent)
  | nondict
deriving DecidableEq

/-- The fields of a request body that the detector reads. The `has_*`
flags model key presence (`"..." in request_data`); `model = none` /
`messages = none` model absence of the respective key. -/
structure OpenAIRequest where
  model : Option String
  messages : Option (List ChatMessage)
  has_frequency_penalty : Bool
  has_presence_penalty : Bool
  has_logit_bias : Bool
  has_best_of : Bool
  has_n : Bool
  has_user : Bool
  has_temperature : Bool
  has_top_p : Bool
  has_system : Bool
  has_anthropic_version : Bool
  has_thinking : Bool
deriving DecidableEq

/-- Python `pat in s`: substring containment. -/
def str_contains_sub (s pat : String) : Bool :=
  1 < (s.splitOn pat).length

/-- The loop body of `_is_openai_messages_format`: a non-dict message
aborts with False; a dict message whose `content` is a string returns
True; otherwise continue. -/
def openai_messages_loop : List ChatMessage → Bool
  | [] => false
  | ChatMessage.nondict :: _ => false
  | ChatMessage.dict content :: rest =>
      match content with
      | some (MsgContent.str _) => true
      | _ => openai_messages_loop rest

/-- `OpenAIToClaude._is_openai_messages_format` applied to
`request_data.get("messages", [])`. -/
def is_openai_messages_format : Option (List ChatMessage) → Bool
  | none => false
  | some msgs => openai_messages_loop msgs

/-- `OpenAIToClaude._is_openai_model_name` applied to
`request_data.get("model", "")`. -/
def is_openai_model_name (model : String) : Bool :=
  ["gpt-", "text-", "davinci", "curie", "babbage", "ada"].any
    (fun p => str_contains_sub model.toLower p)

/-- The OpenAI-specific-parameter presence check of `is_openai_request`. -/
def has_openai_params (r : OpenAIRequest) : Bool :=
  r.has_frequency_penalty || r.has_presence_penalty || r.has_logit_bias ||
  r.has_best_of || r.has_n || r.has_user

/-- `OpenAIToClaude._has_claude_format_features`: any text/image content
block returns True, then a Claude-looking model name, then the presence of
a `system` / `anthropic_version` / `thinking` field. -/
def has_claude_format_features (r : OpenAIRequest) : Bool :=
  let has_claude_fields := r.has_system || r.has_anthropic_version || r.has_thinking
  let msg_feature :=
    match r.messages with
    | none => false
    | some msgs => msgs.any (fun m =>
        match m with
        | ChatMessage.dict (some (MsgContent.blocks bs)) =>
            bs.any (fun b =>
              match b with
              | ContentBlock.dict (some t) => t == "text" || t == "image"
              | _ => false)
        | _ => false)
  let model_feature :=
    ["claude-", "anthropic"].any
      (fun p => str_contains_sub (r.model.getD "").toLower p)
  if msg_feature then true
  else if model_feature then true
  else has_claude_fields

/-- `OpenAIToClaude.is_openai_request`. -/
def is_openai_request (r : OpenAIRequest) : Bool :=
  if r.model.isNone || r.messages.isNone then false
  else
    let hop := has_openai_params r
    if is_openai_messages_format r.messages then true
    else
      let indicators : List Bool :=
        [is_openai_model_name (r.model.getD ""),
         r.has_temperature || r.has_top_p,
         hop,
         !(has_claude_format_features r)]
      if hop then true
      else 2 ≤ indicators.count true

/- ===================================================================
   Streaming Anthropic → OpenAI chunk conversion and thinking state.
   Source: openai_adapter.py `OpenAIToClaude._convert_stream_chunk` and
   the class-level `_thinking_states` dict.
   =================================================================== -/

/-- The fields of one Anthropic stream event that `_convert_stream_chunk`
reads. `message_id` models `claude_chunk.get('message', \x7b\x7d).get('id',
'default')` before the default is applied: it is `some i` when the event
carries a message object with an id (only `message_start` does in an
Anthropic stream) and `none` otherwise. -/
structure ClaudeChunk where
  type : String
  message_id : Option String
  content_block_type : Option String
  delta_type : Option String
  delta_thinking : Option String
  delta_text : Option String
deriving DecidableEq

/-- The key under which the chunk reads and writes `_thinking_states`. -/
def chunk_state_key (c : ClaudeChunk) : String :=
  c.message_id.getD "default"

/-- `OpenAIToClaude._convert_stream_chunk`, restricted to its effect on
`_thinking_states` and the `delta.content` strings of the emitted chunk
(the role delta of `message_start` and the empty finish delta of
`message_stop` carry no content). -/
def convert_stream_chunk (states : List (String × Bool)) (c : ClaudeChunk) :
    List (String × Bool) × List String :=
  let mid := chunk_state_key c
  if c.type = "message_start" then
    (aset states mid false, [])
  else if c.type = "content_block_start" then
    if c.content_block_type = some "thinking" then
      (aset states mid true, ["<think>"])
    else if c.content_block_type = some "text" then
      if (alook states mid).getD false then
        (aset states mid false, ["</think>\n\n"])
      else (states, [])
    else (states, [])
  else if c.type = "content_block_delta" then
    if c.delta_type = some "thinking_delta" then
      (states, [c.delta_thinking.getD ""])
    else if c.delta_type = some "text_delta" then
      (states, [c.delta_text.getD ""])
    else (states, [])
  else if c.type = "message_stop" then
    let closing := if (alook states mid).getD false then ["</think>"] else []
    (adel states mid, closing)
  else (states, [])

/-- Run the converter over a chunk list, concatenating the emitted
`delta.content` strings in order. -/
def convert_stream (states : List (String × Bool)) :
    List ClaudeChunk → List (String × Bool) × List String
  | [] => (states, [])
  | c :: rest =>
      let r1 := convert_stream_chunk states c
      let r2 := convert_stream r1.1 rest
      (r2.1, r1.2 ++ r2.2)

/-- `message_start` carries the upstream message object and its id. -/
def message_start_chunk (id : String) : ClaudeChunk :=
  ⟨"message_start", some id, none, none, none, none⟩

/-- `content_block_start` events of an Anthropic stream carry `index` and
`content_block` but no message object. -/
def content_block_start_chunk (btype : String) : ClaudeChunk :=
  ⟨"content_block_start", none, some btype, none, none, none⟩

def thinking_delta_chunk (s : String) : ClaudeChunk :=
  ⟨"content_block_delta", none, none, some "thinking_delta", some s, none⟩

def text_delta_chunk (s : String) : ClaudeChunk :=
  ⟨"content_block_delta", none, none, some "text_delta", none, some s⟩

def content_block_stop_chunk : ClaudeChunk :=
  ⟨"content_block_stop", none, none, none, none, none⟩

def message_stop_chunk : ClaudeChunk :=
  ⟨"message_stop", none, none, none, none, none⟩

/-- A well-formed single-message Anthropic stream with one thinking block
followed by one text block: message_start, the thinking block with its
deltas, the text block with its deltas, message_stop. -/
def thinking_stream (id : String) (tdeltas cdeltas : List String) :
    List ClaudeChunk :=
  [message_start_chunk id, content_block_start_chunk "thinking"] ++
  tdeltas.map thinking_delta_chunk ++
  [content_block_stop_chunk, content_block_start_chunk "text"] ++
  cdeltas.map text_delta_chunk ++
  [content_block_stop_chunk, message_stop_chunk]

/- ===================================================================
   Theorems.
   =================================================================== -/

/-- C1, counterexample: the claim's lookup order (exact key, then the
table's `default` entry, then the hard-coded fallback) is false for
transport errors. With the network-error `default` entry configured as
`normal_retry` and an unlisted transport kind `WriteError`, the claimed
order yields `normal_retry`, but the code's
`TimeoutConfig.get_network_error_strategy` never consults the `default`
entry and returns the hard-coded `switch_api`. -/
theorem c1_counterexample :
    spec_described_transport_classifier
        (get_error_handling_strategies ⟨none, some [("default", "normal_retry")]⟩)
        "WriteError" = "normal_retry"
    ∧ get_network_error_strategy
        (get_error_handling_strategies ⟨none, some [("default", "normal_retry")]⟩)
        "WriteError" = "switch_api" := by
  constructor <;> rfl

/-- C1, amended: for HTTP statuses, `get_error_strategy` resolves the
exact key and then the table's `default` entry, and because
`get_error_handling_strategies` always merges the stored configuration on
top of defaults containing a `default` entry, it always returns a
strategy (there is no hard-coded HTTP fallback and none is needed);
for transport errors, `TimeoutConfig.get_network_error_strategy` resolves
the exact key and otherwise returns the hard-coded `switch_api`, never
consulting the table's `default` entry. -/
theorem c1_error_strategy_resolution (stored : StoredStrategies)
    (code kind : String) :
    (∃ s, get_error_strategy (get_error_handling_strategies stored)
        code "http_status_code" = some s)
    ∧ (alook (get_error_handling_strategies stored).network_errors kind = none →
        get_network_error_strategy (get_error_handling_strategies stored) kind
          = "switch_api")
    ∧ (∀ v, alook (get_error_handling_strategies stored).network_errors kind = some v →
        get_network_error_strategy (get_error_handling_strategies stored) kind = v) := by
  refine ⟨?_, ?_, ?_⟩
  · have hbase : (alook default_error_handling_strategies.http_status_codes
        "default").isSome := by decide
    have hdef : (alook (get_error_handling_strategies stored).http_status_codes
        "default").isSome := by
      cases hs : stored.http_status_codes with
      | none => simpa [get_error_handling_strategies, hs] using hbase
      | some m =>
          simp only [get_error_handling_strategies, hs]
          exact alook_aupdate_isSome m _ _ hbase
    cases hcode : alook (get_error_handling_strategies stored).http_status_codes code with
    | some s => exact ⟨s, by simp [get_error_strategy, hcode]⟩
    | none =>
        obtain ⟨s, hs⟩ := Option.isSome_iff_exists.mp hdef
        exact ⟨s, by simp [get_error_strategy, hcode, hs]⟩
  · intro h
    simp [get_network_error_strategy, h]
  · intro v h
    simp [get_network_error_strategy, h]

/-- C1, witness: with no stored overrides, an unlisted HTTP status still
gets a strategy (the merged `default` entry), and an unlisted transport
kind falls back to the hard-coded `switch_api`. -/
theorem c1_error_strategy_resolution_witness :
    (∃ s, get_error_strategy (get_error_handling_strategies ⟨none, none⟩)
        "418" "http_status_code" = some s)
    ∧ get_network_error_strategy (get_error_handling_strategies ⟨none, none⟩)
        "WriteError" = "switch_api" :=
  ⟨(c1_error_strategy_resolution ⟨none, none⟩ "418" "WriteError").1,
   (c1_error_strategy_resolution ⟨none, none⟩ "418" "WriteError").2.1 (by rfl)⟩

/-- C5: on a Codex streaming-body timeout the extra seconds grow by the
configured increment and the success counter resets to 0; on a successful
completion with positive extra seconds the counter increments, and on
reaching 3 the state resets to (0, 0) (after a timeout, three consecutive
successes always reset it); with zero extra seconds a success changes
nothing; the effective streaming deadline is base + extra seconds. -/
theorem c5_codex_adaptive_timeout (st : CodexTimeoutState) (increment base : Nat) :
    (codex_on_stream_timeout st increment).codex_timeout_extra_seconds
        = st.codex_timeout_extra_seconds + increment
    ∧ (codex_on_stream_timeout st increment).codex_success_count = 0
    ∧ (0 < st.codex_timeout_extra_seconds → st.codex_success_count + 1 < 3 →
        codex_on_stream_success st
          = ⟨st.codex_timeout_extra_seconds, st.codex_success_count + 1⟩)
    ∧ (0 < st.codex_timeout_extra_seconds → 3 ≤ st.codex_success_count + 1 →
        codex_on_stream_success st = ⟨0, 0⟩)
    ∧ (st.codex_timeout_extra_seconds = 0 → codex_on_stream_success st = st)
    ∧ (0 < increment →
        codex_on_stream_success (codex_on_stream_success (codex_on_stream_success
          (codex_on_stream_timeout st increment))) = ⟨0, 0⟩)
    ∧ codex_stream_total_timeout base st = base + st.codex_timeout_extra_seconds := by
  refine ⟨rfl, rfl, ?_, ?_, ?_, ?_, rfl⟩
  · intro h1 h2
    simp [codex_on_stream_success, h1, Nat.not_le.mpr h2]
  · intro h1 h2
    simp [codex_on_stream_success, h1, h2]
  · intro h
    simp [codex_on_stream_success, h]
  · intro hinc
    have h1 : 0 < st.codex_timeout_extra_seconds + increment := by omega
    simp [codex_on_stream_timeout, codex_on_stream_success, h1]

/-- C5, witness: concrete runs of the adaptive-timeout state machine. -/
theorem c5_codex_adaptive_timeout_witness :
    codex_on_stream_success ⟨60, 0⟩ = (⟨60, 1⟩ : CodexTimeoutState)
    ∧ codex_on_stream_success (codex_on_stream_success (codex_on_stream_success
        (codex_on_stream_timeout ⟨0, 0⟩ 60))) = (⟨0, 0⟩ : CodexTimeoutState)
    ∧ codex_on_stream_success ⟨0, 0⟩ = (⟨0, 0⟩ : CodexTimeoutState) :=
  ⟨(c5_codex_adaptive_timeout ⟨60, 0⟩ 60 60).2.2.1 (by decide) (by decide),
   (c5_codex_adaptive_timeout ⟨0, 0⟩ 60 60).2.2.2.2.2.1 (by decide),
   (c5_codex_adaptive_timeout ⟨0, 0⟩ 60 60).2.2.2.2.1 (by decide)⟩

/-- C10: every call to the error-recording core increments the target
entry's error count by exactly one (auto-creating the record when
absent); whenever the resulting count reaches the threshold - on every
such call, not only the first crossing - the cooldown deadline is re-set
to now + cooldown_seconds and the status flips to warning; below the
threshold the cooldown and status are untouched; other entries are not
modified. -/
theorem c10_record_error_increments_and_rearms (d : List (Nat × EntryStatus))
    (i : Nat) (now : Int) (threshold : Nat) (cooldown_seconds : Int) :
    alook (record_error_core d i now threshold cooldown_seconds) i
        = some (record_entry_error ((alook d i).getD init_entry_status)
            now threshold cooldown_seconds)
    ∧ (record_entry_error ((alook d i).getD init_entry_status)
        now threshold cooldown_seconds).error_count
        = ((alook d i).getD init_entry_status).error_count + 1
    ∧ (threshold ≤ (record_entry_error ((alook d i).getD init_entry_status)
          now threshold cooldown_seconds).error_count →
        (record_entry_error ((alook d i).getD init_entry_status)
          now threshold cooldown_seconds).cooldown_until = some (now + cooldown_seconds)
        ∧ (record_entry_error ((alook d i).getD init_entry_status)
            now threshold cooldown_seconds).status = .warning)
    ∧ ((record_entry_error ((alook d i).getD init_entry_status)
          now threshold cooldown_seconds).error_count < threshold →
        (record_entry_error ((alook d i).getD init_entry_status)
          now threshold cooldown_seconds).cooldown_until
            = ((alook d i).getD init_entry_status).cooldown_until
        ∧ (record_entry_error ((alook d i).getD init_entry_status)
            now threshold cooldown_seconds).status
            = ((alook d i).getD init_entry_status).status)
    ∧ (∀ j, j ≠ i → alook (record_error_core d i now threshold cooldown_seconds) j
        = alook d j) := by
  set old := (alook d i).getD init_entry_status with hold
  refine ⟨?_, ?_, ?_, ?_, ?_⟩
  · show alook (aset d i _) i = _
    rw [alook_aset]
    simp
  · unfold record_entry_error
    by_cases h : old.error_count + 1 ≥ threshold <;> simp [h]
  · intro hthr
    unfold record_entry_error at hthr ⊢
    by_cases h : old.error_count + 1 ≥ threshold
    · simp [h]
    · rw [if_neg h] at hthr
      simp only at hthr
      omega
  · intro hlt
    unfold record_entry_error at hlt ⊢
    by_cases h : old.error_count + 1 ≥ threshold
    · rw [if_pos h] at hlt
      simp only at hlt
      omega
    · simp [h]
  · intro j hj
    unfold record_error_core
    rw [alook_aset, if_neg hj]

/-- C10, witness: recording one error on an empty status dict with
threshold 1 creates the record, sets the count to 1, arms the cooldown at
now + 600 and flips the status to warning, leaving other indices alone. -/
theorem c10_record_error_witness :
    alook (record_error_core [] 0 0 1 600) 0
        = some (record_entry_error init_entry_status 0 1 600)
    ∧ (record_entry_error init_entry_status 0 1 600).cooldown_until = some 600
    ∧ (record_entry_error init_entry_status 0 1 600).status = .warning
    ∧ alook (record_error_core [] 0 0 1 600) 5
        = alook ([] : List (Nat × EntryStatus)) 5 := by
  have h := c10_record_error_increments_and_rearms [] 0 0 1 600
  have hthr := h.2.2.1 (by decide)
  refine ⟨?_, ?_, ?_, h.2.2.2.2 5 (by decide)⟩
  · simpa using h.1
  · simpa using hthr.1
  · simpa using hthr.2

/-- C3: for every reachable entry status, the success reset performed by
reverse_proxy on a response with status below 400 leaves the entry fully
cleared: error count 0, no cooldown, and status normal (in the branch
where the reset is skipped, the reachability invariant shows the entry
was already in exactly that state). -/
theorem c3_success_clears_runtime_state (s : EntryStatus)
    (h : ReachableEntryStatus s) :
    (reset_entry_on_success s).error_count = 0
    ∧ (reset_entry_on_success s).cooldown_until = none
    ∧ (reset_entry_on_success s).status = .normal := by
  unfold reset_entry_on_success
  by_cases hg : s.error_count > 0 ∨ s.cooldown_until ≠ none
  · simp [hg, init_entry_status]
  · push_neg at hg
    obtain ⟨h1, h2⟩ := hg
    have hc : s.error_count = 0 := by omega
    have hst := reachable_count_zero_normal h hc h2
    simp [hc, h2, hst]

/-- C3, witness: an entry that recorded one error below the threshold is
reachable, and a success on it clears the count back to 0 with no
cooldown and normal status. -/
theorem c3_success_clears_runtime_state_witness :
    (reset_entry_on_success (record_entry_error init_entry_status 0 3 600)).error_count = 0
    ∧ (reset_entry_on_success (record_entry_error init_entry_status 0 3 600)).cooldown_until = none
    ∧ (reset_entry_on_success (record_entry_error init_entry_status 0 3 600)).status = .normal :=
  c3_success_clears_runtime_state _
    (ReachableEntryStatus.record init_entry_status 0 3 600 ReachableEntryStatus.init)

theorem counters_le_refl (c : UsageCounters) : counters_le c c := by
  unfold counters_le
  refine ⟨le_refl _, le_refl _, le_refl _, le_refl _, le_refl _, le_refl _⟩

theorem counters_le_add_usage (c : UsageCounters)
    (total input output cache_creation cache_read : Int)
    (htot : 0 ≤ total) (hin : 0 ≤ input) (hout : 0 ≤ output)
    (hcc : 0 ≤ cache_creation) (hcr : 0 ≤ cache_read) :
    counters_le c (add_usage c total input output cache_creation cache_read) := by
  unfold counters_le add_usage
  refine ⟨?_, ?_, ?_, ?_, ?_, ?_⟩ <;> simp <;> omega

/-- C8, counterexample: the claim that every stored counter is monotone
under record_usage fails for usage extracted from a Codex
response.completed event. A usage object with input_tokens 0 and
cached_tokens 5 produces input_tokens = 0 - 5 = -5 in
extract_usage_from_chunks, and record_usage then decrements the summary's
total_input_tokens below its previous value. -/
theorem c8_counterexample :
    (record_usage empty_token_stats "gpt-5-codex"
        (extract_codex_usage ⟨some 0, some 5, some 0⟩) "2026-10-12").summary.total_input_tokens
      < empty_token_stats.summary.total_input_tokens := by decide

/-- C8, amended: record_usage only ever accumulates, so provided the
normalized token amounts of the call are nonnegative (which the Codex
extraction can violate when cached_tokens exceeds input_tokens), every
stored counter is at least its previous value: the summary grows, every
existing by_model and daily record grows component-wise (as do the
per-model daily request counts), and the records for the recorded model
and day exist afterwards (created on first occurrence). -/
theorem c8_record_usage_monotone (stats : TokenStats) (model : String)
    (usage_data : UsageData) (today : String)
    (hin : 0 ≤ py_or_get usage_data.input_tokens usage_data.prompt_tokens)
    (hout : 0 ≤ py_or_get usage_data.output_tokens usage_data.completion_tokens)
    (hcc : 0 ≤ usage_data.cache_creation_input_tokens.getD 0)
    (hcr : 0 ≤ usage_data.cache_read_input_tokens.getD 0)
    (htot : 0 ≤ usage_data.total_tokens.getD
        (py_or_get usage_data.input_tokens usage_data.prompt_tokens +
         py_or_get usage_data.output_tokens usage_data.completion_tokens)) :
    counters_le stats.summary (record_usage stats model usage_data today).summary
    ∧ (∀ m c, alook stats.by_model m = some c →
        ∃ c', alook (record_usage stats model usage_data today).by_model m = some c'
          ∧ counters_le c c')
    ∧ (∃ c', alook (record_usage stats model usage_data today).by_model model = some c')
    ∧ (∀ day r, alook stats.daily day = some r →
        ∃ r', alook (record_usage stats model usage_data today).daily day = some r'
          ∧ counters_le r.counters r'.counters
          ∧ (∀ m n, alook r.models m = some n →
              ∃ n', alook r'.models m = some n' ∧ n ≤ n'))
    ∧ (∃ r', alook (record_usage stats model usage_data today).daily today = some r') := by
  refine ⟨?_, ?_, ?_, ?_, ?_⟩
  · exact counters_le_add_usage _ _ _ _ _ _ htot hin hout hcc hcr
  · intro m c hm
    show ∃ c', alook (aset stats.by_model model _) m = some c' ∧ counters_le c c'
    rw [alook_aset]
    by_cases hmm : m = model
    · subst hmm
      rw [if_pos rfl]
      have hgd : (alook stats.by_model m).getD zero_counters = c := by rw [hm]; rfl
      rw [hgd]
      exact ⟨_, rfl, counters_le_add_usage _ _ _ _ _ _ htot hin hout hcc hcr⟩
    · rw [if_neg hmm]
      exact ⟨c, hm, counters_le_refl c⟩
  · show ∃ c', alook (aset stats.by_model model _) model = some c'
    rw [alook_aset, if_pos rfl]
    exact ⟨_, rfl⟩
  · intro day r hday
    show ∃ r', alook (aset stats.daily today _) day = some r' ∧ _
    rw [alook_aset]
    by_cases hdd : day = today
    · subst hdd
      rw [if_pos rfl]
      have hrec : (alook stats.daily day).getD ⟨zero_counters, []⟩ = r := by rw [hday]; rfl
      rw [hrec]
      refine ⟨_, rfl, ?_, ?_⟩
      · exact counters_le_add_usage _ _ _ _ _ _ htot hin hout hcc hcr
      · intro m n hn
        rw [alook_aset]
        by_cases hmm : m = model
        · subst hmm
          rw [if_pos rfl]
          have hgd : (alook r.models m).getD 0 = n := by rw [hn]; rfl
          rw [hgd]
          exact ⟨_, rfl, by omega⟩
        · rw [if_neg hmm]
          exact ⟨n, hn, le_refl n⟩
    · rw [if_neg hdd]
      exact ⟨r, hday, counters_le_refl r.counters, fun m n hn => ⟨n, hn, le_refl n⟩⟩
  · show ∃ r', alook (aset stats.daily today _) today = some r'
    rw [alook_aset, if_pos rfl]
    exact ⟨_, rfl⟩

/-- C8, witness: a Codex usage object with 5 input tokens, 2 of them
cached, is recorded monotonically on the empty store. -/
theorem c8_record_usage_monotone_witness :
    counters_le empty_token_stats.summary
      (record_usage empty_token_stats "gpt-5-codex"
        (extract_codex_usage ⟨some 5, some 2, some 3⟩) "2026-10-12").summary :=
  (c8_record_usage_monotone empty_token_stats "gpt-5-codex"
    (extract_codex_usage ⟨some 5, some 2, some 3⟩) "2026-10-12"
    (by decide) (by decide) (by decide) (by decide) (by decide)).1

/-- A request whose messages use plain-string content (an OpenAI-Chat
heuristic match) while the body also carries an Anthropic-specific
`system` field. -/
def c7_request : OpenAIRequest :=
  { model := some "claude-sonnet-4-20250514"
    messages := some [ChatMessage.dict (some (MsgContent.str "hello"))]
    has_frequency_penalty := false
    has_presence_penalty := false
    has_logit_bias := false
    has_best_of := false
    has_n := false
    has_user := false
    has_temperature := false
    has_top_p := false
    has_system := true
    has_anthropic_version := false
    has_thinking := false }

/-- C7, counterexample: a request that matches the OpenAI string-content
heuristic but also carries an Anthropic `system` field is classified as
OpenAI (is_openai_request returns true), because string-content messages
cause an early `return True` before any Anthropic-specific field is
considered - the claim says such a request is classified as Anthropic. -/
theorem c7_counterexample :
    is_openai_messages_format c7_request.messages = true
    ∧ c7_request.has_system = true
    ∧ is_openai_request c7_request = true := by decide

/-- C7, amended: Anthropic-specific features take precedence only in the
indicator-scoring stage. When the request has model and messages keys,
no message has plain-string content, and no OpenAI-specific parameter is
present, a request with Anthropic format features (a system /
anthropic_version / thinking field, a text or image content block, or a
Claude model name) is classified as Anthropic unless at least two of the
remaining indicators hold - in particular whenever the model name is not
OpenAI-style or neither temperature nor top_p is present. -/
theorem c7_claude_features_win_scoring (r : OpenAIRequest)
    (hm : r.model.isSome = true) (hmsg : r.messages.isSome = true)
    (h1 : is_openai_messages_format r.messages = false)
    (h2 : has_openai_params r = false)
    (h3 : has_claude_format_features r = true)
    (h4 : (r.has_temperature || r.has_top_p) = false
        ∨ is_openai_model_name (r.model.getD "") = false) :
    is_openai_request r = false := by
  unfold is_openai_request
  have hmn : r.model.isNone = false := by
    cases hx : r.model with
    | none => rw [hx] at hm; simp at hm
    | some v => rfl
  have hmsgn : r.messages.isNone = false := by
    cases hx : r.messages with
    | none => rw [hx] at hmsg; simp at hmsg
    | some v => rfl
  rw [hmn, hmsgn]
  simp only [Bool.or_self, Bool.false_eq_true, if_false, h1, h2, h3]
  rcases h4 with h4 | h4
  · rw [h4]
    cases hx : is_openai_model_name (r.model.getD "") <;>
      simp [List.count]
  · rw [h4]
    cases hx : (r.has_temperature || r.has_top_p) <;>
      simp [List.count]

/-- C7, witness: a request with a text content block and a system field
but no string content, no OpenAI parameters and no temperature/top_p is
classified as Anthropic even though its model name is OpenAI-style. -/
theorem c7_claude_features_win_scoring_witness :
    is_openai_request
      { model := some "gpt-4"
        messages := some [ChatMessage.dict (some (MsgContent.blocks
          [ContentBlock.dict (some "text")]))]
        has_frequency_penalty := false
        has_presence_penalty := false
        has_logit_bias := false
        has_best_of := false
        has_n := false
        has_user := false
        has_temperature := false
        has_top_p := false
        has_system := true
        has_anthropic_version := false
        has_thinking := false } = false :=
  c7_claude_features_win_scoring _ (by decide) (by decide) (by decide)
    (by decide) (by decide) (Or.inl (by decide))

theorem convert_stream_append (st : List (String × Bool))
    (l1 l2 : List ClaudeChunk) :
    convert_stream st (l1 ++ l2)
      = ((convert_stream (convert_stream st l1).1 l2).1,
         (convert_stream st l1).2 ++ (convert_stream (convert_stream st l1).1 l2).2) := by
  induction l1 generalizing st with
  | nil => simp [convert_stream]
  | cons c rest ih =>
      simp only [List.cons_append, convert_stream, List.append_eq]
      rw [ih ((convert_stream_chunk st c).1)]
      simp [List.append_assoc]

theorem convert_thinking_deltas (st : List (String × Bool)) (ts : List String) :
    convert_stream st (ts.map thinking_delta_chunk) = (st, ts) := by
  induction ts with
  | nil => simp [convert_stream]
  | cons t rest ih =>
      simp [convert_stream,
        show convert_stream_chunk st (thinking_delta_chunk t) = (st, [t]) from rfl, ih]

theorem convert_text_deltas (st : List (String × Bool)) (ts : List String) :
    convert_stream st (ts.map text_delta_chunk) = (st, ts) := by
  induction ts with
  | nil => simp [convert_stream]
  | cons t rest ih =>
      simp [convert_stream,
        show convert_stream_chunk st (text_delta_chunk t) = (st, [t]) from rfl, ih]

/-- C6, amended: for a single well-formed Anthropic stream with one
thinking block followed by one text block, processed alone from a clean
state, the emitted delta.content strings are exactly one `<think>`, the
thinking deltas, one closing `</think>` (with the blank line the code
appends), and the text deltas - a single bracket pair around the
concatenated thinking text. The bracketing state, however, is keyed by
the upstream message id only for message_start events; all other events
carry no message object and read and write the shared key "default"
(see the counterexample), so interleaved streams are not isolated. -/
theorem c6_thinking_bracketing (id : String) (tdeltas cdeltas : List String) :
    (convert_stream [] (thinking_stream id tdeltas cdeltas)).2
      = ["<think>"] ++ tdeltas ++ ["</think>\n\n"] ++ cdeltas := by
  unfold thinking_stream
  rw [show ([message_start_chunk id, content_block_start_chunk "thinking"] ++
        tdeltas.map thinking_delta_chunk ++
        [content_block_stop_chunk, content_block_start_chunk "text"] ++
        cdeltas.map text_delta_chunk ++
        [content_block_stop_chunk, message_stop_chunk] : List ClaudeChunk)
      = message_start_chunk id :: content_block_start_chunk "thinking" ::
        (tdeltas.map thinking_delta_chunk ++
         (content_block_stop_chunk :: content_block_start_chunk "text" ::
          (cdeltas.map text_delta_chunk ++
           [content_block_stop_chunk, message_stop_chunk]))) by simp]
  simp only [convert_stream]
  rw [show convert_stream_chunk [] (message_start_chunk id)
        = (aset [] id false, []) from rfl]
  rw [show convert_stream_chunk (aset [] id false) (content_block_start_chunk "thinking")
        = (aset (aset [] id false) "default" true, ["<think>"]) from rfl]
  rw [convert_stream_append]
  rw [convert_thinking_deltas]
  simp only [convert_stream]
  rw [show convert_stream_chunk (aset (aset [] id false) "default" true)
        content_block_stop_chunk
        = (aset (aset [] id false) "default" true, []) from rfl]
  have hlook : (alook (aset (aset [] id false) "default" true) "default").getD false
      = true := by
    rw [alook_aset, if_pos rfl]
    rfl
  rw [show convert_stream_chunk (aset (aset [] id false) "default" true)
        (content_block_start_chunk "text")
        = (aset (aset (aset [] id false) "default" true) "default" false,
           ["</think>\n\n"]) by
    simp [convert_stream_chunk, chunk_state_key, content_block_start_chunk, hlook]]
  rw [convert_stream_append]
  rw [convert_text_deltas]
  simp only [convert_stream]
  rw [show convert_stream_chunk (aset (aset (aset [] id false) "default" true)
        "default" false) content_block_stop_chunk
        = (aset (aset (aset [] id false) "default" true) "default" false, []) from rfl]
  have hlook2 : (alook (aset (aset (aset [] id false) "default" true) "default" false)
      "default").getD false = false := by
    rw [alook_aset, if_pos rfl]
    rfl
  rw [show convert_stream_chunk (aset (aset (aset [] id false) "default" true)
        "default" false) message_stop_chunk
        = (adel (aset (aset (aset [] id false) "default" true) "default" false)
            "default", []) by
    simp [convert_stream_chunk, chunk_state_key, message_stop_chunk, hlook2]]
  simp

/-- C6, counterexample: the thinking state is not keyed by the stream's
message id. After stream A's message_start (id msg_A) and its thinking
block start, the flag is stored under the literal key "default" while
msg_A's own entry still reads false; interleaving stream B's
message_start (id msg_B) and B's first text block start then emits the
closing tag that A's thinking opened - B's output contains a stray
closing bracket, so interleaved streams read each other's state. -/
theorem c6_counterexample :
    (convert_stream []
      [message_start_chunk "msg_A", content_block_start_chunk "thinking",
       message_start_chunk "msg_B", content_block_start_chunk "text"]).2
      = ["<think>", "</think>\n\n"]
    ∧ alook (convert_stream []
        [message_start_chunk "msg_A", content_block_start_chunk "thinking"]).1 "msg_A"
      = some false
    ∧ alook (convert_stream []
        [message_start_chunk "msg_A", content_block_start_chunk "thinking"]).1 "default"
      = some true := by decide


/-- A primary entry enabled on all weekdays. -/
def c2_primary : ApiConfig :=
  { name := "A", base_url := "https://a", key := "ka", enabled := true,
    ctype := none, time_enabled := [true, true, true, true, true, true, true] }

/-- A backup entry enabled on all weekdays. -/
def c2_backup : ApiConfig :=
  { name := "B", base_url := "https://b", key := "kb", enabled := true,
    ctype := some "backup", time_enabled := [true, true, true, true, true, true, true] }

/-- The pool state after the primary recorded one error at time 0 with
error threshold 1 and a 10-second cooldown: entry A is cooling until
second 10. -/
def c2_state1 : ApiState :=
  { configs := [c2_primary, c2_backup]
    status := record_error_core [(0, init_entry_status), (1, init_entry_status)] 0 0 1 10
    current_index := 0
    is_using_backup := false
    backup_start_time := none
    last_primary_check_time := none
    last_primary_switch_time := 0 }

/-- C2, counterexample: starting from the cooling-primary state, a
selection at second 1 switches to the backup, a selection at second 2
probes the still-cooling primary and stamps the probe clock, and a
selection at second 15 - after the primary's cooldown expired at second
10, but within the 30-second probe interval - returns the backup and
leaves using_backup true even though primary A is available again (the
availability filter on the final state returns index 0). This refutes
the claimed invariant that an available primary forces using_backup to
be false after every selection. -/
theorem c2_counterexample :
    ((get_current_config c2_state1 ⟨1, 0⟩ 30).bind (fun r1 =>
      (get_current_config r1.2 ⟨2, 0⟩ 30).bind (fun r2 =>
        (get_current_config r2.2 ⟨15, 0⟩ 30).map (fun r3 =>
          (r3.2.is_using_backup,
           (filter_available r3.2.configs ⟨15, 0⟩
             (get_primary_indices r3.2.configs) r3.2.status).1,
           r3.1.name)))))
      = some (true, [0], "B") := by decide

theorem normalize_current_index_of_valid (st : ApiState) (now : PyTime)
    (h0 : 0 ≤ st.current_index)
    (hlt : st.current_index < (st.configs.length : Int)) :
    normalize_current_index st now = st := by
  have hcond : (decide (st.current_index < 0)
      || decide ((st.configs.length : Int) ≤ st.current_index)) = false := by
    rw [Bool.or_eq_false_iff]
    exact ⟨decide_eq_false (not_lt.mpr h0), decide_eq_false (not_le.mpr hlt)⟩
  simp [normalize_current_index, hcond]

/-- C2, amended: the invariant holds exactly when the selection consults
the primaries. For a selection whose current index is in range, if the
pool is not on backup on entry, or it is on backup and the primary probe
fires (no probe yet, or the probe interval has elapsed), then the
availability of any primary at that instant forces using_backup to be
false in the resulting state. Between probes, while on backup, the
selector does not look at the primaries and may keep using_backup true
(see the counterexample). -/
theorem c2_probe_clears_backup_flag (st : ApiState) (now : PyTime)
    (check_interval : Int)
    (hne : st.configs ≠ [])
    (h0 : 0 ≤ st.current_index)
    (hlt : st.current_index < (st.configs.length : Int))
    (hmode : st.is_using_backup = false
        ∨ should_check_primary st now check_interval = true)
    (havail : (filter_available st.configs now
        (get_primary_indices st.configs) st.status).1 ≠ [])
    (c : SelectedConfig) (st' : ApiState)
    (h : get_current_config st now check_interval = some (c, st')) :
    st'.is_using_backup = false := by
  have hemp : st.configs.isEmpty = false := by
    cases hc : st.configs with
    | nil => exact absurd hc hne
    | cons a l => rfl
  have hd1 : decide (st.current_index < 0) = false :=
    decide_eq_false (not_lt.mpr h0)
  have hd2 : decide ((st.configs.length : Int) ≤ st.current_index) = false :=
    decide_eq_false (not_le.mpr hlt)
  unfold get_current_config at h
  rw [hemp] at h
  simp only [Bool.false_eq_true, if_false] at h
  rw [normalize_current_index_of_valid st now h0 hlt] at h
  unfold get_current_config_selection at h
  simp only [] at h
  cases hav : (filter_available st.configs now
      (get_primary_indices st.configs) st.status).1 with
  | nil => exact absurd hav havail
  | cons sel rest =>
      rw [hav] at h
      cases hub : st.is_using_backup with
      | false =>
          simp only [hub, Bool.false_eq_true, if_false] at h
          cases hcfg : cfgAt st.configs (sel : Int) with
          | none => simp [hcfg] at h
          | some c0 =>
              simp only [hcfg, Option.map_some', Option.some.injEq,
                Prod.mk.injEq] at h
              rw [← h.2]
      | true =>
          have hchk : should_check_primary st now check_interval = true := by
            rcases hmode with hm | hm
            · rw [hub] at hm
              exact absurd hm (by simp)
            · exact hm
          have hchk2 : should_check_primary
              { configs := st.configs
                status := (filter_available st.configs now
                  (get_primary_indices st.configs) st.status).2
                current_index := st.current_index
                is_using_backup := true
                backup_start_time := st.backup_start_time
                last_primary_check_time := st.last_primary_check_time
                last_primary_switch_time := st.last_primary_switch_time }
              now check_interval = true := hchk
          simp only [hub, hchk2, if_true] at h
          cases hcfg : cfgAt st.configs (sel : Int) with
          | none => simp [hcfg] at h
          | some c0 =>
              simp only [hcfg, Option.map_some', Option.some.injEq,
                Prod.mk.injEq] at h
              rw [← h.2]

/-- A pool on backup whose primary probe has never fired: the next
selection probes the primaries. -/
def c2_probe_state : ApiState :=
  { configs := [c2_primary, c2_backup]
    status := [(0, init_entry_status), (1, init_entry_status)]
    current_index := 1
    is_using_backup := true
    backup_start_time := some 0
    last_primary_check_time := none
    last_primary_switch_time := 0 }

/-- C2, witness: on-backup state with an available primary and a pending
probe; the selection at second 5 clears using_backup. -/
theorem c2_probe_clears_backup_flag_witness :
    ((get_current_config c2_probe_state ⟨5, 0⟩ 30).map (fun r => r.2.is_using_backup))
      = some false := by
  cases hrun : get_current_config c2_probe_state ⟨5, 0⟩ 30 with
  | none => exact absurd hrun (by decide)
  | some r =>
      have hflag := c2_probe_clears_backup_flag c2_probe_state ⟨5, 0⟩ 30
        (by decide) (by decide) (by decide) (Or.inr (by decide)) (by decide)
        r.1 r.2 (by rw [hrun])
      simp [hrun, hflag]

theorem mem_indexed {α : Type} :
    ∀ (l : List α) (n : Nat) (p : Nat × α), p ∈ indexed n l → p.1 < n + l.length := by
  intro l
  induction l with
  | nil => intro n p hp; simp [indexed] at hp
  | cons c cs ih =>
      intro n p hp
      simp only [indexed, List.mem_cons] at hp
      rcases hp with hp | hp
      · subst hp
        simp only [List.length_cons]
        omega
      · have := ih (n + 1) p hp
        simp only [List.length_cons]
        omega

theorem get_primary_indices_lt (configs : List ApiConfig) :
    ∀ i ∈ get_primary_indices configs, i < configs.length := by
  intro i hi
  unfold get_primary_indices at hi
  simp only [List.mem_map, List.mem_filter] at hi
  obtain ⟨p, ⟨hp, _⟩, rfl⟩ := hi
  have := mem_indexed configs 0 p hp
  omega

theorem get_backup_indices_lt (configs : List ApiConfig) :
    ∀ i ∈ get_backup_indices configs, i < configs.length := by
  intro i hi
  unfold get_backup_indices at hi
  simp only [List.mem_map, List.mem_filter] at hi
  obtain ⟨p, ⟨hp, _⟩, rfl⟩ := hi
  have := mem_indexed configs 0 p hp
  omega

theorem get_codex_backup_api_indices_lt (configs : List ApiConfig) :
    ∀ i ∈ get_codex_backup_api_indices configs, i < configs.length := by
  intro i hi
  unfold get_codex_backup_api_indices at hi
  simp only [] at hi
  by_cases hb : get_backup_indices configs ≠ []
  · rw [if_pos hb] at hi
    exact get_backup_indices_lt configs i hi
  · rw [if_neg hb] at hi
    by_cases hl : 1 < configs.length
    · rw [if_pos hl] at hi
      simp only [List.mem_singleton] at hi
      omega
    · rw [if_neg hl] at hi
      simp at hi

theorem filter_available_mem (configs : List ApiConfig) (now : PyTime) :
    ∀ (idxs : List Nat) (d : List (Nat × EntryStatus)) (i : Nat),
      i ∈ (filter_available configs now idxs d).1 → i ∈ idxs := by
  intro idxs
  induction idxs with
  | nil => intro d i hi; simp [filter_available] at hi
  | cons j rest ih =>
      intro d i hi
      simp only [filter_available] at hi
      split at hi
      · rcases List.mem_cons.mp hi with hi | hi
        · subst hi
          exact List.mem_cons_self _ _
        · exact List.mem_cons_of_mem _ (ih _ i hi)
      · exact List.mem_cons_of_mem _ (ih _ i hi)

theorem first_available_mem (configs : List ApiConfig) (now : PyTime) :
    ∀ (idxs : List Nat) (d : List (Nat × EntryStatus)) (i : Nat),
      (first_available configs now idxs d).1 = some i → i ∈ idxs := by
  intro idxs
  induction idxs with
  | nil => intro d i hi; simp [first_available] at hi
  | cons j rest ih =>
      intro d i hi
      simp only [first_available] at hi
      split at hi
      · simp only at hi
        rw [Option.some.injEq] at hi
        subst hi
        exact List.mem_cons_self _ _
      · exact List.mem_cons_of_mem _ (ih _ i hi)

theorem cfgAt_isSome (configs : List ApiConfig) (idx : Int) (h0 : 0 ≤ idx)
    (hlt : idx < (configs.length : Int)) : ∃ c, cfgAt configs idx = some c := by
  unfold cfgAt
  rw [if_pos h0]
  cases hc : configs.get? idx.toNat with
  | none =>
      rw [List.get?_eq_none] at hc
      omega
  | some c => exact ⟨c, rfl⟩

theorem find_primary_some_lt (configs : List ApiConfig)
    (d : List (Nat × EntryStatus)) (now : PyTime) (i : Nat)
    (h : (find_primary_api_for_time configs d now).1 = some i) :
    i < configs.length := by
  unfold find_primary_api_for_time at h
  cases hp : get_primary_indices configs with
  | nil => rw [hp] at h; simp at h
  | cons p rest =>
      rw [hp] at h
      simp only at h
      cases hf : (first_available configs now (p :: rest) d).1 with
      | some j =>
          rw [hf] at h
          simp only [Option.some.injEq] at h
          have hj := first_available_mem configs now (p :: rest) d j hf
          rw [← hp] at hj
          exact h ▸ get_primary_indices_lt configs j hj
      | none =>
          rw [hf] at h
          simp only [Option.some.injEq] at h
          have hj : p ∈ get_primary_indices configs := by
            rw [hp]
            exact List.mem_cons_self _ _
          exact h ▸ get_primary_indices_lt configs p hj

theorem ensure_current_api_index_valid (st : ApiState) (now : PyTime) (rb : Bool)
    (hne : st.configs ≠ []) :
    (ensure_current_api_index st now rb).configs = st.configs
    ∧ 0 ≤ (ensure_current_api_index st now rb).current_index
    ∧ (ensure_current_api_index st now rb).current_index < (st.configs.length : Int) := by
  have hemp : st.configs.isEmpty = false := by
    cases hc : st.configs with
    | nil => exact absurd hc hne
    | cons a l => rfl
  have hlen : (0 : Int) < (st.configs.length : Int) := by
    cases hc : st.configs with
    | nil => exact absurd hc hne
    | cons a l => simp [hc]
  unfold ensure_current_api_index
  rw [hemp]
  simp only [Bool.false_eq_true, if_false]
  cases hf : (find_primary_api_for_time st.configs st.status now).1 with
  | some i =>
      have hi : ((i : Nat) : Int) < (st.configs.length : Int) := by
        have := find_primary_some_lt st.configs st.status now i hf
        exact_mod_cast this
      simp only [hf]
      rw [if_pos hi]
      exact ⟨rfl, Int.natCast_nonneg i, hi⟩
  | none =>
      simp only [hf]
      rw [if_pos hlen]
      exact ⟨rfl, le_refl 0, hlen⟩

theorem normalize_current_index_valid (st : ApiState) (now : PyTime)
    (hne : st.configs ≠ []) :
    (normalize_current_index st now).configs = st.configs
    ∧ 0 ≤ (normalize_current_index st now).current_index
    ∧ (normalize_current_index st now).current_index < (st.configs.length : Int) := by
  unfold normalize_current_index
  by_cases hc : (decide (st.current_index < 0)
      || decide ((st.configs.length : Int) ≤ st.current_index)) = true
  · rw [if_pos hc]
    obtain ⟨he1, he2, he3⟩ := ensure_current_api_index_valid st now true hne
    have hcond : (decide ((ensure_current_api_index st now true).current_index < 0)
        || decide (((ensure_current_api_index st now true).configs.length : Int)
            ≤ (ensure_current_api_index st now true).current_index)) = false := by
      rw [Bool.or_eq_false_iff]
      refine ⟨decide_eq_false (not_lt.mpr he2), ?_⟩
      rw [he1]
      exact decide_eq_false (not_le.mpr he3)
    rw [if_neg (by rw [hcond]; exact Bool.false_ne_true)]
    exact ⟨he1, he2, he3⟩
  · rw [if_neg hc]
    rw [Bool.or_eq_true_iff, decide_eq_true_eq, decide_eq_true_eq, not_or] at hc
    exact ⟨rfl, not_lt.mp hc.1, not_le.mp hc.2⟩

theorem normalize_codex_index_valid (st : ApiState) (now : PyTime)
    (hne : st.configs ≠ []) :
    (normalize_codex_index st now).configs = st.configs
    ∧ 0 ≤ (normalize_codex_index st now).current_index
    ∧ (normalize_codex_index st now).current_index < (st.configs.length : Int) := by
  have hlen : (0 : Int) < (st.configs.length : Int) := by
    cases hc : st.configs with
    | nil => exact absurd hc hne
    | cons a l => simp [hc]
  unfold normalize_codex_index
  by_cases hc : (decide (st.current_index < 0)
      || decide ((st.configs.length : Int) ≤ st.current_index)) = true
  · rw [if_pos hc]
    simp only []
    cases hf : (first_available st.configs now (get_primary_indices st.configs) st.status).1 with
    | some i =>
        have hi := first_available_mem st.configs now _ _ i hf
        have hilt : ((i : Nat) : Int) < (st.configs.length : Int) := by
          have := get_primary_indices_lt st.configs i hi
          exact_mod_cast this
        exact ⟨rfl, Int.natCast_nonneg i, hilt⟩
    | none =>
        cases hp : get_primary_indices st.configs with
        | nil => exact ⟨rfl, le_refl 0, hlen⟩
        | cons p rest =>
            have hp2 : p ∈ get_primary_indices st.configs := by
              rw [hp]
              exact List.mem_cons_self _ _
            have hplt : ((p : Nat) : Int) < (st.configs.length : Int) := by
              have := get_primary_indices_lt st.configs p hp2
              exact_mod_cast this
            exact ⟨rfl, Int.natCast_nonneg p, hplt⟩
  · rw [if_neg hc]
    rw [Bool.or_eq_true_iff, decide_eq_true_eq, decide_eq_true_eq, not_or] at hc
    exact ⟨rfl, not_lt.mp hc.1, not_le.mp hc.2⟩

theorem backup_walk_isSome (now : PyTime) :
    ∀ (idxs : List Nat) (st : ApiState),
      0 ≤ st.current_index → st.current_index < (st.configs.length : Int) →
      (∀ b ∈ idxs, b < st.configs.length) →
      (backup_walk now st idxs).isSome = true := by
  intro idxs
  induction idxs with
  | nil =>
      intro st h0 hlt hb
      obtain ⟨c, hc⟩ := cfgAt_isSome st.configs st.current_index h0 hlt
      simp [backup_walk, hc]
  | cons b rest ih =>
      intro st h0 hlt hb
      simp only [backup_walk]
      by_cases hav : (is_api_available st.configs st.status b now).1 = true
      · rw [if_pos hav]
        have hblt : ((b : Nat) : Int) < (st.configs.length : Int) := by
          exact_mod_cast hb b (List.mem_cons_self b rest)
        obtain ⟨c, hc⟩ := cfgAt_isSome st.configs (b : Int) (Int.natCast_nonneg b) hblt
        split <;> simp [hc]
      · rw [if_neg hav]
        exact ih _ h0 hlt (fun x hx => hb x (List.mem_cons_of_mem b hx))

theorem backup_fallback_isSome (now : PyTime) :
    ∀ (idxs : List Nat) (st : ApiState),
      0 ≤ st.current_index → st.current_index < (st.configs.length : Int) →
      (∀ b ∈ idxs, b < st.configs.length) →
      (backup_fallback now st idxs).isSome = true := by
  intro idxs
  induction idxs with
  | nil =>
      intro st h0 hlt hb
      obtain ⟨c, hc⟩ := cfgAt_isSome st.configs st.current_index h0 hlt
      simp [backup_fallback, hc]
  | cons b rest ih =>
      intro st h0 hlt hb
      simp only [backup_fallback]
      by_cases hav : (is_api_available st.configs st.status b now).1 = true
      · rw [if_pos hav]
        have hblt : ((b : Nat) : Int) < (st.configs.length : Int) := by
          exact_mod_cast hb b (List.mem_cons_self b rest)
        obtain ⟨c, hc⟩ := cfgAt_isSome st.configs (b : Int) (Int.natCast_nonneg b) hblt
        simp [hc]
      · rw [if_neg hav]
        exact ih _ h0 hlt (fun x hx => hb x (List.mem_cons_of_mem b hx))

theorem codex_backup_fallback_isSome (now : PyTime) :
    ∀ (idxs : List Nat) (st : ApiState),
      0 ≤ st.current_index → st.current_index < (st.configs.length : Int) →
      (∀ b ∈ idxs, b < st.configs.length) →
      (codex_backup_fallback now st idxs).isSome = true := by
  intro idxs
  induction idxs with
  | nil =>
      intro st h0 hlt hb
      obtain ⟨c, hc⟩ := cfgAt_isSome st.configs st.current_index h0 hlt
      simp [codex_backup_fallback, hc]
  | cons b rest ih =>
      intro st h0 hlt hb
      simp only [codex_backup_fallback]
      by_cases hav : (is_api_available st.configs st.status b now).1 = true
      · rw [if_pos hav]
        have hblt : ((b : Nat) : Int) < (st.configs.length : Int) := by
          exact_mod_cast hb b (List.mem_cons_self b rest)
        obtain ⟨c, hc⟩ := cfgAt_isSome st.configs (b : Int) (Int.natCast_nonneg b) hblt
        simp [hc]
      · rw [if_neg hav]
        exact ih _ h0 hlt (fun x hx => hb x (List.mem_cons_of_mem b hx))

theorem get_current_config_selection_isSome (st1 : ApiState) (now : PyTime)
    (ci : Int) (h0 : 0 ≤ st1.current_index)
    (hlt : st1.current_index < (st1.configs.length : Int)) :
    (get_current_config_selection st1 now ci).isSome = true := by
  unfold get_current_config_selection
  simp only []
  have hprim : ∀ target tail,
      (filter_available st1.configs now (get_primary_indices st1.configs) st1.status).1
        = target :: tail →
      ∃ c, cfgAt st1.configs (target : Int) = some c := by
    intro target tail hav
    have hmem : target ∈ get_primary_indices st1.configs :=
      filter_available_mem st1.configs now _ _ target
        (hav ▸ List.mem_cons_self target tail)
    have hblt : ((target : Nat) : Int) < (st1.configs.length : Int) := by
      exact_mod_cast get_primary_indices_lt st1.configs target hmem
    exact cfgAt_isSome st1.configs (target : Int) (Int.natCast_nonneg target) hblt
  have hback : ∀ b ∈ get_backup_indices st1.configs, b < st1.configs.length :=
    get_backup_indices_lt st1.configs
  split
  · split
    · cases hav : (filter_available st1.configs now
          (get_primary_indices st1.configs) st1.status).1 with
      | cons target tail =>
          obtain ⟨c, hc⟩ := hprim target tail hav
          simp [hav, hc]
      | nil =>
          simp only [hav]
          exact backup_walk_isSome now _ _ h0 hlt hback
    · exact backup_walk_isSome now _ _ h0 hlt hback
  · cases hav : (filter_available st1.configs now
        (get_primary_indices st1.configs) st1.status).1 with
    | cons target tail =>
        obtain ⟨c, hc⟩ := hprim target tail hav
        simp [hav, hc]
    | nil =>
        simp only [hav]
        exact backup_fallback_isSome now _ _ h0 hlt hback

theorem get_current_codex_selection_isSome (st1 : ApiState) (now : PyTime)
    (ci : Int) (h0 : 0 ≤ st1.current_index)
    (hlt : st1.current_index < (st1.configs.length : Int)) :
    (get_current_codex_selection st1 now ci).isSome = true := by
  unfold get_current_codex_selection
  simp only []
  have hprim : ∀ target tail,
      (filter_available st1.configs now (get_primary_indices st1.configs) st1.status).1
        = target :: tail →
      ∃ c, cfgAt st1.configs (target : Int) = some c := by
    intro target tail hav
    have hmem : target ∈ get_primary_indices st1.configs :=
      filter_available_mem st1.configs now _ _ target
        (hav ▸ List.mem_cons_self target tail)
    have hblt : ((target : Nat) : Int) < (st1.configs.length : Int) := by
      exact_mod_cast get_primary_indices_lt st1.configs target hmem
    exact cfgAt_isSome st1.configs (target : Int) (Int.natCast_nonneg target) hblt
  have hback : ∀ b ∈ get_codex_backup_api_indices st1.configs, b < st1.configs.length :=
    get_codex_backup_api_indices_lt st1.configs
  split
  · split
    · cases hav : (filter_available st1.configs now
          (get_primary_indices st1.configs) st1.status).1 with
      | cons target tail =>
          obtain ⟨c, hc⟩ := hprim target tail hav
          simp [hav, hc]
      | nil =>
          simp only [hav]
          exact backup_walk_isSome now _ _ h0 hlt hback
    · exact backup_walk_isSome now _ _ h0 hlt hback
  · cases hav : (filter_available st1.configs now
        (get_primary_indices st1.configs) st1.status).1 with
    | cons target tail =>
        obtain ⟨c, hc⟩ := hprim target tail hav
        simp [hav, hc]
    | nil =>
        simp only [hav]
        exact codex_backup_fallback_isSome now _ _ h0 hlt hback

/-- C9: both selectors are total. They always return a configuration:
an empty pool yields the placeholder config with base_url "", key "" and
name "未配置" and an unchanged state; a non-empty pool always yields
`some` result (out-of-range and negative cursors are first re-normalized
to a valid index, and every force-continue path indexes with the
normalized cursor, so no lookup can fail). -/
theorem c9_selector_totality (st : ApiState) (now : PyTime) (check_interval : Int) :
    (get_current_config st now check_interval).isSome = true
    ∧ (get_current_codex_config st now check_interval).isSome = true
    ∧ (st.configs = [] →
        get_current_config st now check_interval = some (placeholder_config, st)
        ∧ get_current_codex_config st now check_interval = some (placeholder_config, st)) := by
  by_cases hemp : st.configs = []
  · have hempT : st.configs.isEmpty = true := by rw [hemp]; rfl
    refine ⟨?_, ?_, fun _ => ⟨?_, ?_⟩⟩ <;>
      simp [get_current_config, get_current_codex_config, hempT]
  · have hempF : st.configs.isEmpty = false := by
      cases hc : st.configs with
      | nil => exact absurd hc hemp
      | cons a l => rfl
    obtain ⟨hn1, hn2, hn3⟩ := normalize_current_index_valid st now hemp
    obtain ⟨hm1, hm2, hm3⟩ := normalize_codex_index_valid st now hemp
    refine ⟨?_, ?_, fun hx => absurd hx hemp⟩
    · unfold get_current_config
      rw [hempF]
      simp only [Bool.false_eq_true, if_false]
      exact get_current_config_selection_isSome (normalize_current_index st now)
        now check_interval hn2 (by rw [hn1]; exact hn3)
    · unfold get_current_codex_config
      rw [hempF]
      simp only [Bool.false_eq_true, if_false]
      by_cases hone : st.configs.length = 1
      · rw [if_pos hone]
        cases hc : st.configs.get? 0 with
        | none =>
            rw [List.get?_eq_none] at hc
            omega
        | some c => simp [hc]
      · rw [if_neg hone]
        exact get_current_codex_selection_isSome (normalize_codex_index st now)
          now check_interval hm2 (by rw [hm1]; exact hm3)

/-- C9, witness: the empty pool returns the placeholder config from both
selectors, and a concrete one-entry pool state with a negative cursor
still yields a selection. -/
theorem c9_selector_totality_witness :
    (get_current_config ⟨[], [], -1, false, none, none, 0⟩ ⟨0, 0⟩ 30
        = some (placeholder_config, ⟨[], [], -1, false, none, none, 0⟩)
      ∧ get_current_codex_config ⟨[], [], -1, false, none, none, 0⟩ ⟨0, 0⟩ 30
        = some (placeholder_config, ⟨[], [], -1, false, none, none, 0⟩))
    ∧ (get_current_config ⟨[c2_primary], [], -1, false, none, none, 0⟩ ⟨0, 0⟩ 30).isSome
        = true :=
  ⟨(c9_selector_totality ⟨[], [], -1, false, none, none, 0⟩ ⟨0, 0⟩ 30).2.2 rfl,
   (c9_selector_totality ⟨[c2_primary], [], -1, false, none, none, 0⟩ ⟨0, 0⟩ 30).1⟩
